import Mathlib

/-!
Shallow embedding of the go-retry library (`retry.go` and the back-off
retrier file) together with proofs about its retry-loop semantics.

Modelling conventions:
* A Go `error` value is `Option E`: `none` models `nil` (success) and
  `some e` models a non-nil error value `e`.
* A callback `func() error` is modelled as a function `Nat → Option E` of
  its own invocation index (a deterministic single-threaded closure's
  result is a function of how often it has been called).  A callback
  `func(stop func()) error` is modelled as `Nat → Option E × Bool`, the
  boolean recording whether that invocation called `stop()`.
* `numTimes int` is an `Int`, so negative budgets are representable.
* `time.Duration` is an `Int` (nanosecond count); `time.Sleep` is logged
  into a list of slept durations.
* `context.Context` is modelled by the value of `ctx.Err()` at each poll:
  a function `Nat → Option E` of the poll index (one poll per wrapped
  invocation; Go polls the same monotone value twice in a row, which is
  observationally a single poll).
* The `float64` back-off coefficient is modelled as an exact rational;
  `math.Round` is rounding half away from zero.
Each Go loop `for i := 0; i <= numTimes; i++` runs `numTimes + 1`
iterations when `numTimes ≥ 0` and none otherwise; that iteration count is
the structural fuel of the corresponding Lean recursion.
-/

namespace GoRetry

/-- Number of iterations of the Go loop `for i := 0; i <= numTimes; i++`. -/
def goFuel (numTimes : Int) : Nat :=
  if numTimes < 0 then 0 else numTimes.toNat + 1

/-- State-passing core of `Retry`'s loop (`retry.go`, lines 10–19):
`err = cb(); if err == nil { break }`, iterated `fuel` times, threading the
callback state `s`; the third argument is the current value of `err`
(initially `nil`). -/
def retryLoopS {σ E : Type} (cb : σ → Option E × σ) : Nat → σ → Option E → Option E × σ
  | 0, s, err => (err, s)
  | fuel+1, s, _ =>
      match (cb s).1 with
      | none => (none, (cb s).2)
      | some e => retryLoopS cb fuel (cb s).2 (some e)

/-- Go `Retry` generalised over the callback state (used by the wrappers
that close over mutable state, exactly as the Go source passes closures to
`Retry`). -/
def RetryS {σ E : Type} (numTimes : Int) (cb : σ → Option E × σ) (s : σ) : Option E × σ :=
  retryLoopS cb (goFuel numTimes) s none

/-- Go `Retry` (`retry.go`): the callback state is its invocation counter,
so the second component of the result is the number of invocations. -/
def Retry {E : Type} (numTimes : Int) (cb : Nat → Option E) : Option E × Nat :=
  RetryS numTimes (fun k => (cb k, k + 1)) 0

/-- Observable counters of a context-wrapped run: `polls` counts wrapped
invocations (each polls `ctx.Err()` once), `calls` counts invocations of
the user-supplied callback. -/
structure CtxSt where
  polls : Nat
  calls : Nat
deriving DecidableEq

/-- The closure `Retry` is given by Go `RetryCtx`:
`if ctx.Err() != nil { return ctx.Err() }; return cb()`. -/
def RetryCtxCb {E : Type} (ctxErr : Nat → Option E) (cb : Nat → Option E) (s : CtxSt) :
    Option E × CtxSt :=
  match ctxErr s.polls with
  | some e => (some e, ⟨s.polls + 1, s.calls⟩)
  | none => (cb s.calls, ⟨s.polls + 1, s.calls + 1⟩)

/-- Go `RetryCtx` (`retry.go`, lines 23–30). -/
def RetryCtx {E : Type} (ctxErr : Nat → Option E) (numTimes : Int) (cb : Nat → Option E) :
    Option E × CtxSt :=
  RetryS numTimes (RetryCtxCb ctxErr cb) ⟨0, 0⟩

/-- State-passing core of `RetryWithDelay`'s loop (`retry.go`, lines
35–45): like `retryLoopS` but executing `time.Sleep(delay)` after every
failing attempt; slept durations are accumulated in the list. -/
def retryWithDelayLoopS {σ E : Type} (delay : Int) (cb : σ → Option E × σ) :
    Nat → σ → List Int → Option E → Option E × σ × List Int
  | 0, s, sleeps, err => (err, s, sleeps)
  | fuel+1, s, sleeps, _ =>
      match (cb s).1 with
      | none => (none, (cb s).2, sleeps)
      | some e => retryWithDelayLoopS delay cb fuel (cb s).2 (sleeps ++ [delay]) (some e)

/-- Go `RetryWithDelay` (`retry.go`). -/
def RetryWithDelay {E : Type} (numTimes : Int) (delay : Int) (cb : Nat → Option E) :
    Option E × Nat × List Int :=
  retryWithDelayLoopS delay (fun k => (cb k, k + 1)) (goFuel numTimes) 0 [] none

/-- Go `RetryWithDelayCtx` (`retry.go`): `RetryWithDelay` applied to the
same context-checking closure as `RetryCtx`. -/
def RetryWithDelayCtx {E : Type} (ctxErr : Nat → Option E) (numTimes : Int) (delay : Int)
    (cb : Nat → Option E) : Option E × CtxSt × List Int :=
  retryWithDelayLoopS delay (RetryCtxCb ctxErr cb) (goFuel numTimes) ⟨0, 0⟩ [] none

/-- State-passing core of `RetryWithStop`'s loop (`retry.go`, lines
61–74): `if cancelled { break }; err = cb(stop)`; the callback reports
whether it invoked `stop()` (which sets the `cancelled` flag). -/
def retryWithStopLoopS {σ E : Type} (cb : σ → (Option E × Bool) × σ) :
    Nat → σ → Bool → Option E → Option E × σ
  | 0, s, _, err => (err, s)
  | fuel+1, s, cancelled, err =>
      if cancelled then (err, s)
      else retryWithStopLoopS cb fuel (cb s).2 (cb s).1.2 (cb s).1.1

/-- Go `RetryWithStop` (`retry.go`): the callback state is its invocation
counter. -/
def RetryWithStop {E : Type} (numTimes : Int) (cb : Nat → Option E × Bool) :
    Option E × Nat :=
  retryWithStopLoopS (fun k => (cb k, k + 1)) (goFuel numTimes) 0 false none

/-- The closure `RetryWithStop` is given by Go `RetryWithStopCtx`:
`if ctx.Err() != nil { stop(); return ctx.Err() }; return cb(stop)`. -/
def RetryWithStopCtxCb {E : Type} (ctxErr : Nat → Option E) (cb : Nat → Option E × Bool)
    (s : CtxSt) : (Option E × Bool) × CtxSt :=
  match ctxErr s.polls with
  | some e => ((some e, true), ⟨s.polls + 1, s.calls⟩)
  | none => (cb s.calls, ⟨s.polls + 1, s.calls + 1⟩)

/-- Go `RetryWithStopCtx` (`retry.go`, lines 78–86). -/
def RetryWithStopCtx {E : Type} (ctxErr : Nat → Option E) (numTimes : Int)
    (cb : Nat → Option E × Bool) : Option E × CtxSt :=
  retryWithStopLoopS (RetryWithStopCtxCb ctxErr cb) (goFuel numTimes) ⟨0, 0⟩ false none

/-- Go `math.Round` on exact rationals: the nearest integer with halves
rounded away from zero.  It is computed on the rational's numerator and
denominator (via `Rat.divInt`, which evaluates by kernel reduction);
`mathRound_eq_floor` below certifies the usual characterisation
`if q < 0 then -⌊1/2 - q⌋ else ⌊q + 1/2⌋`. -/
def mathRound (q : ℚ) : Int :=
  if 0 ≤ q.num then Rat.floor (Rat.divInt (2 * q.num + (q.den : Int)) (2 * (q.den : Int)))
  else -(Rat.floor (Rat.divInt (2 * (-q.num) + (q.den : Int)) (2 * (q.den : Int))))

/-- The exact rational product `c * d` of the back-off coefficient with an
integer delay, again in kernel-computable form; `ratMulInt_eq` below
certifies that it equals `c * d`. -/
def ratMulInt (c : ℚ) (d : Int) : ℚ :=
  Rat.divInt (c.num * d) (c.den : Int)

/-- Go `BackOffRetrier` (back-off retrier file, lines 18–21):
`initialDelay time.Duration` and `backOffCoefficient float64`, the latter
modelled as an exact rational. -/
structure BackOffRetrier where
  initialDelay : Int
  backOffCoefficient : ℚ
deriving DecidableEq

/-- Go `NewBackOffRetrier`. -/
def NewBackOffRetrier (initialDelay : Int) (backOffCoefficient : ℚ) : BackOffRetrier :=
  ⟨initialDelay, backOffCoefficient⟩

/-- Loop-local state of a back-off run: the current `delay` variable, the
user-callback invocation counter and the log of slept durations. -/
structure BoSt where
  delay : Int
  calls : Nat
  sleeps : List Int
deriving DecidableEq

/-- The closure `Retry` is given by Go `BackOffRetrier.Retry`:
`err := cb(); if err != nil { time.Sleep(delay); delay = round(coeff * delay) }`. -/
def BoRetryCb {E : Type} (c : ℚ) (cb : Nat → Option E) (s : BoSt) : Option E × BoSt :=
  match cb s.calls with
  | none => (none, ⟨s.delay, s.calls + 1, s.sleeps⟩)
  | some e => (some e, ⟨mathRound (ratMulInt c s.delay), s.calls + 1, s.sleeps ++ [s.delay]⟩)

/-- Go `BackOffRetrier.Retry` (back-off retrier file, lines 30–40):
`delay := r.initialDelay` then `Retry numTimes` of the sleeping closure. -/
def BackOffRetrier.Retry {E : Type} (r : BackOffRetrier) (numTimes : Int)
    (cb : Nat → Option E) : Option E × BoSt :=
  RetryS numTimes (BoRetryCb r.backOffCoefficient cb) ⟨r.initialDelay, 0, []⟩

/-- Loop-local state of a cancellable back-off run. -/
structure CtxBoSt where
  delay : Int
  polls : Nat
  calls : Nat
  sleeps : List Int
deriving DecidableEq

/-- The closure `Retry` is given by Go `BackOffRetrier.RetryCtx`:
check `ctx.Err()` first, otherwise run the callback and sleep on failure. -/
def BoRetryCtxCb {E : Type} (c : ℚ) (ctxErr : Nat → Option E) (cb : Nat → Option E)
    (s : CtxBoSt) : Option E × CtxBoSt :=
  match ctxErr s.polls with
  | some e => (some e, ⟨s.delay, s.polls + 1, s.calls, s.sleeps⟩)
  | none =>
    match cb s.calls with
    | none => (none, ⟨s.delay, s.polls + 1, s.calls + 1, s.sleeps⟩)
    | some e =>
        (some e, ⟨mathRound (ratMulInt c s.delay), s.polls + 1, s.calls + 1, s.sleeps ++ [s.delay]⟩)

/-- Go `BackOffRetrier.RetryCtx` (back-off retrier file, lines 44–59). -/
def BackOffRetrier.RetryCtx {E : Type} (r : BackOffRetrier) (ctxErr : Nat → Option E)
    (numTimes : Int) (cb : Nat → Option E) : Option E × CtxBoSt :=
  RetryS numTimes (BoRetryCtxCb r.backOffCoefficient ctxErr cb) ⟨r.initialDelay, 0, 0, []⟩

/-- The closure `RetryWithStop` is given by Go `BackOffRetrier.RetryWithStop`:
`err := cb(stop); if err != nil { time.Sleep(delay); delay = round(coeff * delay) }`. -/
def BoStopCb {E : Type} (c : ℚ) (cb : Nat → Option E × Bool) (s : BoSt) :
    (Option E × Bool) × BoSt :=
  match (cb s.calls).1 with
  | none => ((none, (cb s.calls).2), ⟨s.delay, s.calls + 1, s.sleeps⟩)
  | some e =>
      ((some e, (cb s.calls).2),
        ⟨mathRound (ratMulInt c s.delay), s.calls + 1, s.sleeps ++ [s.delay]⟩)

/-- Go `BackOffRetrier.RetryWithStop` (back-off retrier file, lines 63–73). -/
def BackOffRetrier.RetryWithStop {E : Type} (r : BackOffRetrier) (numTimes : Int)
    (cb : Nat → Option E × Bool) : Option E × BoSt :=
  retryWithStopLoopS (BoStopCb r.backOffCoefficient cb) (goFuel numTimes)
    ⟨r.initialDelay, 0, []⟩ false none

/-- The closure `RetryWithStop` is given by Go `BackOffRetrier.RetryWithStopCtx`:
on a pending context error, call `stop()` and return it; otherwise run the
callback, sleeping and advancing the delay on failure. -/
def BoStopCtxCb {E : Type} (c : ℚ) (ctxErr : Nat → Option E) (cb : Nat → Option E × Bool)
    (s : CtxBoSt) : (Option E × Bool) × CtxBoSt :=
  match ctxErr s.polls with
  | some e => ((some e, true), ⟨s.delay, s.polls + 1, s.calls, s.sleeps⟩)
  | none =>
    match (cb s.calls).1 with
    | none => ((none, (cb s.calls).2), ⟨s.delay, s.polls + 1, s.calls + 1, s.sleeps⟩)
    | some e =>
        ((some e, (cb s.calls).2),
          ⟨mathRound (ratMulInt c s.delay), s.polls + 1, s.calls + 1, s.sleeps ++ [s.delay]⟩)

/-- Go `BackOffRetrier.RetryWithStopCtx` (back-off retrier file). -/
def BackOffRetrier.RetryWithStopCtx {E : Type} (r : BackOffRetrier) (ctxErr : Nat → Option E)
    (numTimes : Int) (cb : Nat → Option E × Bool) : Option E × CtxBoSt :=
  retryWithStopLoopS (BoStopCtxCb r.backOffCoefficient ctxErr cb) (goFuel numTimes)
    ⟨r.initialDelay, 0, 0, []⟩ false none

/-- A monotone cancellation signal whose `Err()` becomes `some reason`
from the `m`-th poll on; `ctxFrom 0 reason` is a signal that is already
cancelled before the retry call. -/
def ctxFrom {E : Type} (m : Nat) (reason : E) : Nat → Option E :=
  fun i => if i < m then none else some reason

/-- The sequence of `delay` values produced by iterating
`delay = round(c * delay)`: `iterDelay c d t` is the value after `t`
updates starting from `d`. -/
def iterDelay (c : ℚ) : Int → Nat → Int
  | d, 0 => d
  | d, t+1 => iterDelay c (mathRound (ratMulInt c d)) t

/-- The list of durations a back-off run sleeps across `t` failing
attempts when the `delay` variable starts at `d`. -/
def backoffSleeps (c : ℚ) : Int → Nat → List Int
  | _, 0 => []
  | d, t+1 => d :: backoffSleeps c (mathRound (ratMulInt c d)) t

/-- Number of failing results among invocations `k, k+1, …, k+t-1` of a
callback. -/
def countFailsFrom {E : Type} (cb : Nat → Option E) : Nat → Nat → Nat
  | _, 0 => 0
  | k, t+1 => (if (cb k).isSome then 1 else 0) + countFailsFrom cb (k+1) t

/-- Delay law written in the specification's data model: the delay after
the (1-indexed) `i`-th failing attempt is `initialDelay × coefficient^(i-1)`
rounded to the nearest whole unit.  Kept for comparison with the
implementation's iterated-rounding sequence `iterDelay`. -/
def specBackoffDelay (d : Int) (c : ℚ) (i : Nat) : Int :=
  mathRound (Rat.divInt (d * c.num ^ (i - 1)) ((c.den : Int) ^ (i - 1)))

/-! ### Basic lemmas about the plain bounded-retry loop -/

lemma retryLoopS_succ {σ E : Type} (cb : σ → Option E × σ) (fuel : Nat) (s : σ)
    (e0 : Option E) :
    retryLoopS cb (fuel + 1) s e0 =
      match (cb s).1 with
      | none => (none, (cb s).2)
      | some e => retryLoopS cb fuel (cb s).2 (some e) := rfl

lemma retryWithDelayLoopS_succ {σ E : Type} (delay : Int) (cb : σ → Option E × σ)
    (fuel : Nat) (s : σ) (sleeps : List Int) (e0 : Option E) :
    retryWithDelayLoopS delay cb (fuel + 1) s sleeps e0 =
      match (cb s).1 with
      | none => (none, (cb s).2, sleeps)
      | some e => retryWithDelayLoopS delay cb fuel (cb s).2 (sleeps ++ [delay]) (some e) := rfl

lemma retryWithStopLoopS_succ {σ E : Type} (cb : σ → (Option E × Bool) × σ) (fuel : Nat)
    (s : σ) (cancelled : Bool) (err : Option E) :
    retryWithStopLoopS cb (fuel + 1) s cancelled err =
      if cancelled then (err, s)
      else retryWithStopLoopS cb fuel (cb s).2 (cb s).1.2 (cb s).1.1 := rfl

lemma rat_floor_eq_intFloor (q : ℚ) : Rat.floor q = Int.floor q := by
  rw [Rat.floor_def', Rat.floor_def]

/-- Certifies that `ratMulInt` is the rational product it stands for. -/
lemma ratMulInt_eq (c : ℚ) (d : Int) : ratMulInt c d = c * (d : ℚ) := by
  rw [ratMulInt, Rat.divInt_eq_div]
  push_cast
  rw [mul_div_right_comm, Rat.num_div_den]

/-- Certifies that `mathRound` is rounding to the nearest integer with
halves away from zero, exactly as Go's `math.Round`. -/
lemma mathRound_eq_floor (q : ℚ) :
    mathRound q = if q < 0 then -Int.floor (1/2 - q) else Int.floor (q + 1/2) := by
  have hd0 : ((q.den : ℚ)) ≠ 0 := by
    exact_mod_cast q.den_nz
  have h1 : Rat.divInt (2 * q.num + (q.den : Int)) (2 * (q.den : Int)) = q + 1/2 := by
    rw [Rat.divInt_eq_div]
    push_cast
    conv_rhs => rw [← Rat.num_div_den q]
    field_simp
    ring
  have h2 : Rat.divInt (2 * (-q.num) + (q.den : Int)) (2 * (q.den : Int)) = 1/2 - q := by
    rw [Rat.divInt_eq_div]
    push_cast
    conv_rhs => rw [← Rat.num_div_den q]
    field_simp
    ring
  rw [mathRound, h1, h2, rat_floor_eq_intFloor, rat_floor_eq_intFloor]
  by_cases hq : q < 0
  · rw [if_pos hq, if_neg (by simpa [Rat.num_nonneg] using not_le.mpr hq)]
  · rw [if_neg hq, if_pos (by simpa [Rat.num_nonneg] using not_lt.mp hq)]

/-- Certifies that `specBackoffDelay` rounds the rational
`initialDelay × coefficient^(i-1)` named by the specification. -/
lemma specBackoffDelay_eq (d : Int) (c : ℚ) (i : Nat) :
    specBackoffDelay d c i = mathRound ((d : ℚ) * c ^ (i - 1)) := by
  have hd0 : ((c.den : ℚ)) ≠ 0 := by exact_mod_cast c.den_nz
  rw [specBackoffDelay]
  congr 1
  rw [Rat.divInt_eq_div]
  push_cast
  conv_rhs => rw [← Rat.num_div_den c]
  rw [div_pow]
  field_simp

lemma goFuel_of_nonneg {numTimes : Int} (h : 0 ≤ numTimes) :
    goFuel numTimes = numTimes.toNat + 1 := by
  rw [goFuel, if_neg (by omega)]

lemma goFuel_of_neg {numTimes : Int} (h : numTimes < 0) : goFuel numTimes = 0 := by
  rw [goFuel, if_pos h]

lemma retryLoop_nat_fail_all {E : Type} (cb : Nat → Option E) (hfail : ∀ j, cb j ≠ none) :
    ∀ fuel k e0,
      retryLoopS (fun j => (cb j, j + 1)) (fuel + 1) k e0 = (cb (k + fuel), k + fuel + 1) := by
  intro fuel
  induction fuel with
  | zero =>
    intro k e0
    obtain ⟨e, he⟩ := Option.ne_none_iff_exists'.mp (hfail k)
    simp [retryLoopS, he]
  | succ fuel ih =>
    intro k e0
    obtain ⟨e, he⟩ := Option.ne_none_iff_exists'.mp (hfail k)
    rw [retryLoopS_succ]
    simp only [he]
    rw [ih (k + 1) (some e), show k + 1 + fuel = k + (fuel + 1) from by omega]

lemma retryLoop_nat_succ_at {E : Type} (cb : Nat → Option E) :
    ∀ m fuel k e0, (∀ j, j < m → cb (k + j) ≠ none) → cb (k + m) = none → m < fuel →
      retryLoopS (fun j => (cb j, j + 1)) fuel k e0 = (none, k + m + 1) := by
  intro m
  induction m with
  | zero =>
    intro fuel k e0 _ hsucc hlt
    obtain ⟨f, rfl⟩ : ∃ f, fuel = f + 1 := ⟨fuel - 1, by omega⟩
    simp only [Nat.add_zero] at hsucc
    simp [retryLoopS, hsucc]
  | succ m ih =>
    intro fuel k e0 hfail hsucc hlt
    obtain ⟨f, rfl⟩ : ∃ f, fuel = f + 1 := ⟨fuel - 1, by omega⟩
    have h0 : cb k ≠ none := by simpa using hfail 0 (by omega)
    obtain ⟨e, he⟩ := Option.ne_none_iff_exists'.mp h0
    rw [retryLoopS_succ]
    simp only [he]
    have hstep := ih f (k + 1) (some e)
      (fun j hj => by
        have := hfail (j + 1) (by omega)
        simpa [show k + (j + 1) = k + 1 + j from by omega] using this)
      (by simpa [show k + (m + 1) = k + 1 + m from by omega] using hsucc)
      (by omega)
    rw [hstep, show k + 1 + m + 1 = k + (m + 1) + 1 from by omega]

/-- C1: for every `numTimes ≥ 0` and every operation whose first success
occurs on its `k`-th invocation with `k ≤ numTimes + 1`, `Retry` invokes
the operation exactly `k` times and returns the success outcome `nil`; in
particular an operation that always succeeds (here: one succeeding already
on its first invocation) is invoked exactly once regardless of
`numTimes`. -/
theorem retry_stops_at_first_success {E : Type} (numTimes : Int) (cb cbs : Nat → Option E)
    (k : Nat) (h0 : 0 ≤ numTimes) (hk1 : 1 ≤ k) (hk : (k : Int) ≤ numTimes + 1)
    (hfail : ∀ j, j < k - 1 → cb j ≠ none) (hsucc : cb (k - 1) = none)
    (hs : cbs 0 = none) :
    Retry numTimes cb = (none, k) ∧ Retry numTimes cbs = (none, 1) := by
  constructor
  · rw [Retry, RetryS, goFuel_of_nonneg h0]
    have hrun := retryLoop_nat_succ_at cb (k - 1) (numTimes.toNat + 1) 0 none
      (fun j hj => by simpa using hfail j hj) (by simpa using hsucc) (by omega)
    rw [hrun, show 0 + (k - 1) + 1 = k from by omega]
  · rw [Retry, RetryS, goFuel_of_nonneg h0]
    have hrun := retryLoop_nat_succ_at cbs 0 (numTimes.toNat + 1) 0 none
      (fun j hj => absurd hj (by omega)) (by simpa using hs) (by omega)
    rw [hrun]

theorem retry_stops_at_first_success_witness :
    (0 : Int) ≤ 5 ∧ 1 ≤ 2 ∧ ((2 : Nat) : Int) ≤ 5 + 1
    ∧ (∀ j, j < 2 - 1 → (fun j => if j = 0 then (some 3 : Option Nat) else none) j ≠ none)
    ∧ (fun j => if j = 0 then (some 3 : Option Nat) else none) (2 - 1) = none
    ∧ (fun _ : Nat => (none : Option Nat)) 0 = none
    ∧ (Retry 5 (fun j => if j = 0 then (some 3 : Option Nat) else none) = (none, 2)
        ∧ Retry 5 (fun _ : Nat => (none : Option Nat)) = (none, 1)) :=
  ⟨by decide, by decide, by decide, by decide, by decide, by decide,
    retry_stops_at_first_success 5 _ _ 2 (by decide) (by decide) (by decide)
      (by decide) (by decide) (by decide)⟩

/-- C2: for every `numTimes ≥ 0` and every operation failing on every
invocation, `Retry` invokes the operation exactly `numTimes + 1` times and
returns exactly the failure produced by the last attempt (attempt index
`numTimes` when counting from 0), unwrapped and unaltered. -/
theorem retry_exhaustion_returns_last_failure {E : Type} (numTimes : Int)
    (cb : Nat → Option E) (h0 : 0 ≤ numTimes) (hfail : ∀ j, cb j ≠ none) :
    Retry numTimes cb = (cb numTimes.toNat, numTimes.toNat + 1) := by
  rw [Retry, RetryS, goFuel_of_nonneg h0]
  have hrun := retryLoop_nat_fail_all cb hfail numTimes.toNat 0 none
  simpa using hrun

theorem retry_exhaustion_returns_last_failure_witness :
    (0 : Int) ≤ 1 ∧ (∀ j : Nat, (fun _ : Nat => (some 7 : Option Nat)) j ≠ none)
    ∧ Retry 1 (fun _ : Nat => (some 7 : Option Nat)) = (some 7, 2) :=
  ⟨by decide, fun _ => Option.some_ne_none 7,
    retry_exhaustion_returns_last_failure 1 _ (by decide) (fun _ => Option.some_ne_none 7)⟩

/-- C10: for every `numTimes < 0`, `Retry`, `RetryWithDelay` and
`RetryWithStop` return the success indicator (`nil` error) without
invoking the operation even once and without sleeping. -/
theorem negative_budget_returns_nil_without_attempts {E : Type} (numTimes : Int)
    (delay : Int) (cb cbd : Nat → Option E) (scb : Nat → Option E × Bool)
    (h : numTimes < 0) :
    Retry numTimes cb = (none, 0)
    ∧ RetryWithDelay numTimes delay cbd = (none, 0, [])
    ∧ RetryWithStop numTimes scb = (none, 0) := by
  refine ⟨?_, ?_, ?_⟩ <;>
    simp [Retry, RetryS, RetryWithDelay, RetryWithStop, goFuel_of_neg h, retryLoopS,
      retryWithDelayLoopS, retryWithStopLoopS]

/-! ### Lemmas about the explicit-stop loop -/

lemma retryWithStopLoopS_cancelled {σ E : Type} (cb : σ → (Option E × Bool) × σ) :
    ∀ fuel (s : σ) (e0 : Option E), retryWithStopLoopS cb fuel s true e0 = (e0, s) := by
  intro fuel s e0
  cases fuel <;> simp [retryWithStopLoopS]

lemma stopLoop_nat_no_stop {E : Type} (cb : Nat → Option E × Bool)
    (hns : ∀ i, (cb i).2 = false) :
    ∀ fuel k e0, retryWithStopLoopS (fun j => (cb j, j + 1)) (fuel + 1) k false e0
      = ((cb (k + fuel)).1, k + fuel + 1) := by
  intro fuel
  induction fuel with
  | zero =>
    intro k e0
    rw [retryWithStopLoopS_succ]
    simp [retryWithStopLoopS]
  | succ fuel ih =>
    intro k e0
    rw [retryWithStopLoopS_succ]
    simp only [if_neg Bool.false_ne_true, hns k]
    rw [ih (k + 1) ((cb k).1), show k + 1 + fuel = k + (fuel + 1) from by omega]

lemma stopLoop_nat_stop_at {E : Type} (cb : Nat → Option E × Bool) :
    ∀ m fuel k e0, (∀ j, j < m → (cb (k + j)).2 = false) → (cb (k + m)).2 = true →
      m < fuel →
      retryWithStopLoopS (fun j => (cb j, j + 1)) fuel k false e0
        = ((cb (k + m)).1, k + m + 1) := by
  intro m
  induction m with
  | zero =>
    intro fuel k e0 _ hstop hlt
    obtain ⟨f, rfl⟩ : ∃ f, fuel = f + 1 := ⟨fuel - 1, by omega⟩
    simp only [Nat.add_zero] at hstop ⊢
    rw [retryWithStopLoopS_succ]
    simp only [if_neg Bool.false_ne_true, hstop]
    rw [retryWithStopLoopS_cancelled]
  | succ m ih =>
    intro fuel k e0 hns hstop hlt
    obtain ⟨f, rfl⟩ : ∃ f, fuel = f + 1 := ⟨fuel - 1, by omega⟩
    have h0 : (cb k).2 = false := by simpa using hns 0 (by omega)
    rw [retryWithStopLoopS_succ]
    simp only [if_neg Bool.false_ne_true, h0]
    have hstep := ih f (k + 1) ((cb k).1)
      (fun j hj => by
        have := hns (j + 1) (by omega)
        simpa [show k + (j + 1) = k + 1 + j from by omega] using this)
      (by simpa [show k + (m + 1) = k + 1 + m from by omega] using hstop)
      (by omega)
    rw [hstep, show k + 1 + m = k + (m + 1) from by omega]

/-- C4: for every `numTimes ≥ 0`, `RetryWithStop` with an operation that
never calls `stop()` invokes the operation exactly `numTimes + 1` times —
even if every invocation returns success, since returning success alone
never terminates the explicit-stop loop. -/
theorem retryWithStop_ignores_success {E : Type} (numTimes : Int)
    (scb : Nat → Option E × Bool) (h0 : 0 ≤ numTimes)
    (hns : ∀ i, (scb i).2 = false) :
    (RetryWithStop numTimes scb).2 = numTimes.toNat + 1 := by
  rw [RetryWithStop, goFuel_of_nonneg h0]
  rw [stopLoop_nat_no_stop scb hns numTimes.toNat 0 none]
  simp

theorem retryWithStop_ignores_success_witness :
    (0 : Int) ≤ 3 ∧ (∀ i : Nat, ((fun _ : Nat => ((none : Option Nat), false)) i).2 = false)
    ∧ (RetryWithStop 3 (fun _ : Nat => ((none : Option Nat), false))).2 = (3 : Int).toNat + 1 :=
  ⟨by decide, fun _ => rfl,
    retryWithStop_ignores_success 3 _ (by decide) (fun _ => rfl)⟩

/-- C5: if the operation calls `stop()` for the first time during its
`j`-th invocation (`1 ≤ j ≤ numTimes + 1`), `RetryWithStop` halts after
attempt `j` regardless of that attempt's own outcome: the operation is
invoked exactly `j` times and the result is exactly the outcome produced
by attempt `j`. -/
theorem retryWithStop_stop_halts_loop {E : Type} (numTimes : Int)
    (scb : Nat → Option E × Bool) (j : Nat) (h0 : 0 ≤ numTimes) (hj1 : 1 ≤ j)
    (hj : (j : Int) ≤ numTimes + 1) (hns : ∀ i, i < j - 1 → (scb i).2 = false)
    (hstop : (scb (j - 1)).2 = true) :
    RetryWithStop numTimes scb = ((scb (j - 1)).1, j) := by
  rw [RetryWithStop, goFuel_of_nonneg h0]
  have hrun := stopLoop_nat_stop_at scb (j - 1) (numTimes.toNat + 1) 0 none
    (fun i hi => by simpa using hns i hi) (by simpa using hstop) (by omega)
  rw [hrun]
  simp only [Nat.zero_add]
  rw [show j - 1 + 1 = j from by omega]

theorem retryWithStop_stop_halts_loop_witness :
    (0 : Int) ≤ 9 ∧ 1 ≤ 2 ∧ ((2 : Nat) : Int) ≤ 9 + 1
    ∧ (∀ i, i < 2 - 1 → ((fun i : Nat => ((none : Option Nat), i == 1)) i).2 = false)
    ∧ ((fun i : Nat => ((none : Option Nat), i == 1)) (2 - 1)).2 = true
    ∧ RetryWithStop 9 (fun i : Nat => ((none : Option Nat), i == 1))
        = (((fun i : Nat => ((none : Option Nat), i == 1)) (2 - 1)).1, 2) :=
  ⟨by decide, by decide, by decide, by decide, by decide,
    retryWithStop_stop_halts_loop 9 _ 2 (by decide) (by decide) (by decide)
      (by decide) (by decide)⟩

theorem negative_budget_returns_nil_without_attempts_witness :
    (-1 : Int) < 0
    ∧ (Retry (-1) (fun _ : Nat => (some 4 : Option Nat)) = (none, 0)
        ∧ RetryWithDelay (-1) 5 (fun _ : Nat => (some 4 : Option Nat)) = (none, 0, [])
        ∧ RetryWithStop (-1) (fun _ : Nat => ((some 4 : Option Nat), false)) = (none, 0)) :=
  ⟨by decide,
    negative_budget_returns_nil_without_attempts (-1) 5 _ _ _ (by decide)⟩

/-! ### Lemmas about the delayed loop and the back-off sleep sequences -/

lemma countFailsFrom_succ {E : Type} (cb : Nat → Option E) (k u : Nat) :
    countFailsFrom cb k (u + 1)
      = (if (cb k).isSome then 1 else 0) + countFailsFrom cb (k + 1) u := rfl

lemma backoffSleeps_succ (c : ℚ) (d : Int) (t : Nat) :
    backoffSleeps c d (t + 1) = d :: backoffSleeps c (mathRound (ratMulInt c d)) t := rfl

lemma backoffSleeps_length (c : ℚ) : ∀ t d, (backoffSleeps c d t).length = t := by
  intro t
  induction t with
  | zero => intro d; simp [backoffSleeps]
  | succ t ih => intro d; simp [backoffSleeps, ih]

lemma backoffSleeps_getD (c : ℚ) :
    ∀ t d i, i < t → (backoffSleeps c d t).getD i 0 = iterDelay c d i := by
  intro t
  induction t with
  | zero => intro d i h; omega
  | succ t ih =>
    intro d i h
    cases i with
    | zero => simp [backoffSleeps, iterDelay]
    | succ i =>
      rw [backoffSleeps_succ, List.getD_cons_succ]
      exact ih (mathRound (ratMulInt c d)) i (by omega)

lemma delayLoop_nat_fail_all {E : Type} (delay : Int) (cb : Nat → Option E)
    (hfail : ∀ j, cb j ≠ none) :
    ∀ fuel k sl e0, retryWithDelayLoopS delay (fun j => (cb j, j + 1)) (fuel + 1) k sl e0
      = (cb (k + fuel), k + fuel + 1, sl ++ List.replicate (fuel + 1) delay) := by
  intro fuel
  induction fuel with
  | zero =>
    intro k sl e0
    obtain ⟨e, he⟩ := Option.ne_none_iff_exists'.mp (hfail k)
    simp [retryWithDelayLoopS, he]
  | succ fuel ih =>
    intro k sl e0
    obtain ⟨e, he⟩ := Option.ne_none_iff_exists'.mp (hfail k)
    rw [retryWithDelayLoopS_succ]
    simp only [he]
    rw [ih (k + 1) (sl ++ [delay]) (some e),
      show k + 1 + fuel = k + (fuel + 1) from by omega]
    simp [List.replicate_succ, List.append_assoc]

lemma delayLoop_nat_calls_mono {E : Type} (delay : Int) (cb : Nat → Option E) :
    ∀ fuel k sl e0,
      k ≤ (retryWithDelayLoopS delay (fun j => (cb j, j + 1)) fuel k sl e0).2.1 := by
  intro fuel
  induction fuel with
  | zero => intro k sl e0; simp [retryWithDelayLoopS]
  | succ fuel ih =>
    intro k sl e0
    rw [retryWithDelayLoopS_succ]
    cases hc : cb k with
    | none => simp [hc]
    | some e =>
      simp only [hc]
      exact le_trans (Nat.le_succ k) (ih (k + 1) (sl ++ [delay]) (some e))

lemma delayLoop_nat_sleeps {E : Type} (delay : Int) (cb : Nat → Option E) :
    ∀ fuel k sl e0,
      (retryWithDelayLoopS delay (fun j => (cb j, j + 1)) fuel k sl e0).2.2
        = sl ++ List.replicate
            (countFailsFrom cb k
              ((retryWithDelayLoopS delay (fun j => (cb j, j + 1)) fuel k sl e0).2.1 - k))
            delay := by
  intro fuel
  induction fuel with
  | zero => intro k sl e0; simp [retryWithDelayLoopS, countFailsFrom]
  | succ fuel ih =>
    intro k sl e0
    rw [retryWithDelayLoopS_succ]
    cases hc : cb k with
    | none =>
      simp only [hc]
      rw [show k + 1 - k = 1 from by omega, countFailsFrom_succ]
      simp [hc, countFailsFrom]
    | some e =>
      simp only [hc]
      have hm := delayLoop_nat_calls_mono delay cb fuel (k + 1) (sl ++ [delay]) (some e)
      rw [ih (k + 1) (sl ++ [delay]) (some e)]
      rw [show (retryWithDelayLoopS delay (fun j => (cb j, j + 1)) fuel (k + 1)
            (sl ++ [delay]) (some e)).2.1 - k
          = ((retryWithDelayLoopS delay (fun j => (cb j, j + 1)) fuel (k + 1)
            (sl ++ [delay]) (some e)).2.1 - (k + 1)) + 1 from by omega,
        countFailsFrom_succ]
      simp [hc, Nat.one_add, List.replicate_succ, List.append_assoc]

lemma boRetry_calls_mono {E : Type} (c : ℚ) (cb : Nat → Option E) :
    ∀ fuel (s : BoSt) e0, s.calls ≤ (retryLoopS (BoRetryCb c cb) fuel s e0).2.calls := by
  intro fuel
  induction fuel with
  | zero => intro s e0; simp [retryLoopS]
  | succ fuel ih =>
    intro s e0
    rw [retryLoopS_succ]
    cases hc : cb s.calls with
    | none => simp [BoRetryCb, hc]
    | some e =>
      simp only [BoRetryCb, hc]
      exact le_trans (Nat.le_succ s.calls)
        (ih ⟨mathRound (ratMulInt c s.delay), s.calls + 1, s.sleeps ++ [s.delay]⟩ (some e))

lemma boRetry_sleeps_spec {E : Type} (c : ℚ) (cb : Nat → Option E) :
    ∀ fuel (s : BoSt) e0,
      (retryLoopS (BoRetryCb c cb) fuel s e0).2.sleeps
        = s.sleeps ++ backoffSleeps c s.delay
            (countFailsFrom cb s.calls
              ((retryLoopS (BoRetryCb c cb) fuel s e0).2.calls - s.calls)) := by
  intro fuel
  induction fuel with
  | zero => intro s e0; simp [retryLoopS, countFailsFrom, backoffSleeps]
  | succ fuel ih =>
    intro s e0
    rw [retryLoopS_succ]
    cases hc : cb s.calls with
    | none =>
      simp only [BoRetryCb, hc]
      rw [show s.calls + 1 - s.calls = 1 from by omega, countFailsFrom_succ]
      simp [hc, countFailsFrom, backoffSleeps]
    | some e =>
      simp only [BoRetryCb, hc]
      have hm := boRetry_calls_mono c cb fuel
        ⟨mathRound (ratMulInt c s.delay), s.calls + 1, s.sleeps ++ [s.delay]⟩ (some e)
      rw [ih ⟨mathRound (ratMulInt c s.delay), s.calls + 1, s.sleeps ++ [s.delay]⟩ (some e)]
      simp only at hm
      rw [show (retryLoopS (BoRetryCb c cb) fuel
            ⟨mathRound (ratMulInt c s.delay), s.calls + 1, s.sleeps ++ [s.delay]⟩ (some e)).2.calls
              - s.calls
          = ((retryLoopS (BoRetryCb c cb) fuel
            ⟨mathRound (ratMulInt c s.delay), s.calls + 1, s.sleeps ++ [s.delay]⟩ (some e)).2.calls
              - (s.calls + 1)) + 1 from by omega,
        countFailsFrom_succ]
      simp [hc, Nat.one_add, backoffSleeps_succ, List.append_assoc]

lemma boRetryCtx_calls_mono {E : Type} (c : ℚ) (ctxErr cb : Nat → Option E) :
    ∀ fuel (s : CtxBoSt) e0,
      s.calls ≤ (retryLoopS (BoRetryCtxCb c ctxErr cb) fuel s e0).2.calls := by
  intro fuel
  induction fuel with
  | zero => intro s e0; simp [retryLoopS]
  | succ fuel ih =>
    intro s e0
    rw [retryLoopS_succ]
    cases hx : ctxErr s.polls with
    | some e =>
      simp only [BoRetryCtxCb, hx]
      exact ih ⟨s.delay, s.polls + 1, s.calls, s.sleeps⟩ (some e)
    | none =>
      cases hc : cb s.calls with
      | none => simp [BoRetryCtxCb, hx, hc]
      | some e =>
        simp only [BoRetryCtxCb, hx, hc]
        exact le_trans (Nat.le_succ s.calls)
          (ih ⟨mathRound (ratMulInt c s.delay), s.polls + 1, s.calls + 1, s.sleeps ++ [s.delay]⟩
            (some e))

lemma boRetryCtx_sleeps_spec {E : Type} (c : ℚ) (ctxErr cb : Nat → Option E) :
    ∀ fuel (s : CtxBoSt) e0,
      (retryLoopS (BoRetryCtxCb c ctxErr cb) fuel s e0).2.sleeps
        = s.sleeps ++ backoffSleeps c s.delay
            (countFailsFrom cb s.calls
              ((retryLoopS (BoRetryCtxCb c ctxErr cb) fuel s e0).2.calls - s.calls)) := by
  intro fuel
  induction fuel with
  | zero => intro s e0; simp [retryLoopS, countFailsFrom, backoffSleeps]
  | succ fuel ih =>
    intro s e0
    rw [retryLoopS_succ]
    cases hx : ctxErr s.polls with
    | some e =>
      simp only [BoRetryCtxCb, hx]
      exact ih ⟨s.delay, s.polls + 1, s.calls, s.sleeps⟩ (some e)
    | none =>
      cases hc : cb s.calls with
      | none =>
        simp only [BoRetryCtxCb, hx, hc]
        rw [show s.calls + 1 - s.calls = 1 from by omega, countFailsFrom_succ]
        simp [hc, countFailsFrom, backoffSleeps]
      | some e =>
        simp only [BoRetryCtxCb, hx, hc]
        have hm := boRetryCtx_calls_mono c ctxErr cb fuel
          ⟨mathRound (ratMulInt c s.delay), s.polls + 1, s.calls + 1, s.sleeps ++ [s.delay]⟩ (some e)
        rw [ih ⟨mathRound (ratMulInt c s.delay), s.polls + 1, s.calls + 1, s.sleeps ++ [s.delay]⟩
          (some e)]
        simp only at hm
        rw [show (retryLoopS (BoRetryCtxCb c ctxErr cb) fuel
              ⟨mathRound (ratMulInt c s.delay), s.polls + 1, s.calls + 1, s.sleeps ++ [s.delay]⟩
              (some e)).2.calls - s.calls
            = ((retryLoopS (BoRetryCtxCb c ctxErr cb) fuel
              ⟨mathRound (ratMulInt c s.delay), s.polls + 1, s.calls + 1, s.sleeps ++ [s.delay]⟩
              (some e)).2.calls - (s.calls + 1)) + 1 from by omega,
          countFailsFrom_succ]
        simp [hc, Nat.one_add, backoffSleeps_succ, List.append_assoc]

lemma boStop_calls_mono {E : Type} (c : ℚ) (cb : Nat → Option E × Bool) :
    ∀ fuel (s : BoSt) (cancelled : Bool) e0,
      s.calls ≤ (retryWithStopLoopS (BoStopCb c cb) fuel s cancelled e0).2.calls := by
  intro fuel
  induction fuel with
  | zero => intro s cancelled e0; simp [retryWithStopLoopS]
  | succ fuel ih =>
    intro s cancelled e0
    rw [retryWithStopLoopS_succ]
    cases cancelled with
    | true => simp
    | false =>
      simp only [if_neg Bool.false_ne_true]
      cases hc : (cb s.calls).1 with
      | none =>
        simp only [BoStopCb, hc]
        exact le_trans (Nat.le_succ s.calls) (ih ⟨s.delay, s.calls + 1, s.sleeps⟩ _ _)
      | some e =>
        simp only [BoStopCb, hc]
        exact le_trans (Nat.le_succ s.calls)
          (ih ⟨mathRound (ratMulInt c s.delay), s.calls + 1, s.sleeps ++ [s.delay]⟩ _ _)

lemma boStop_sleeps_spec {E : Type} (c : ℚ) (cb : Nat → Option E × Bool) :
    ∀ fuel (s : BoSt) (cancelled : Bool) e0,
      (retryWithStopLoopS (BoStopCb c cb) fuel s cancelled e0).2.sleeps
        = s.sleeps ++ backoffSleeps c s.delay
            (countFailsFrom (fun k => (cb k).1) s.calls
              ((retryWithStopLoopS (BoStopCb c cb) fuel s cancelled e0).2.calls
                - s.calls)) := by
  intro fuel
  induction fuel with
  | zero => intro s cancelled e0; simp [retryWithStopLoopS, countFailsFrom, backoffSleeps]
  | succ fuel ih =>
    intro s cancelled e0
    rw [retryWithStopLoopS_succ]
    cases cancelled with
    | true => simp [countFailsFrom, backoffSleeps]
    | false =>
      simp only [if_neg Bool.false_ne_true]
      cases hc : (cb s.calls).1 with
      | none =>
        simp only [BoStopCb, hc]
        have hm := boStop_calls_mono c cb fuel ⟨s.delay, s.calls + 1, s.sleeps⟩
          (cb s.calls).2 none
        rw [ih ⟨s.delay, s.calls + 1, s.sleeps⟩ (cb s.calls).2 none]
        simp only at hm
        rw [show (retryWithStopLoopS (BoStopCb c cb) fuel ⟨s.delay, s.calls + 1, s.sleeps⟩
              (cb s.calls).2 none).2.calls - s.calls
            = ((retryWithStopLoopS (BoStopCb c cb) fuel ⟨s.delay, s.calls + 1, s.sleeps⟩
              (cb s.calls).2 none).2.calls - (s.calls + 1)) + 1 from by omega,
          countFailsFrom_succ]
        simp [hc]
      | some e =>
        simp only [BoStopCb, hc]
        have hm := boStop_calls_mono c cb fuel
          ⟨mathRound (ratMulInt c s.delay), s.calls + 1, s.sleeps ++ [s.delay]⟩ (cb s.calls).2 (some e)
        rw [ih ⟨mathRound (ratMulInt c s.delay), s.calls + 1, s.sleeps ++ [s.delay]⟩
          (cb s.calls).2 (some e)]
        simp only at hm
        rw [show (retryWithStopLoopS (BoStopCb c cb) fuel
              ⟨mathRound (ratMulInt c s.delay), s.calls + 1, s.sleeps ++ [s.delay]⟩
              (cb s.calls).2 (some e)).2.calls - s.calls
            = ((retryWithStopLoopS (BoStopCb c cb) fuel
              ⟨mathRound (ratMulInt c s.delay), s.calls + 1, s.sleeps ++ [s.delay]⟩
              (cb s.calls).2 (some e)).2.calls - (s.calls + 1)) + 1 from by omega,
          countFailsFrom_succ]
        simp [hc, Nat.one_add, backoffSleeps_succ, List.append_assoc]

lemma boStopCtx_calls_mono {E : Type} (c : ℚ) (ctxErr : Nat → Option E)
    (cb : Nat → Option E × Bool) :
    ∀ fuel (s : CtxBoSt) (cancelled : Bool) e0,
      s.calls ≤ (retryWithStopLoopS (BoStopCtxCb c ctxErr cb) fuel s cancelled e0).2.calls := by
  intro fuel
  induction fuel with
  | zero => intro s cancelled e0; simp [retryWithStopLoopS]
  | succ fuel ih =>
    intro s cancelled e0
    rw [retryWithStopLoopS_succ]
    cases cancelled with
    | true => simp
    | false =>
      simp only [if_neg Bool.false_ne_true]
      cases hx : ctxErr s.polls with
      | some e =>
        simp only [BoStopCtxCb, hx]
        exact ih ⟨s.delay, s.polls + 1, s.calls, s.sleeps⟩ _ _
      | none =>
        cases hc : (cb s.calls).1 with
        | none =>
          simp only [BoStopCtxCb, hx, hc]
          exact le_trans (Nat.le_succ s.calls)
            (ih ⟨s.delay, s.polls + 1, s.calls + 1, s.sleeps⟩ _ _)
        | some e =>
          simp only [BoStopCtxCb, hx, hc]
          exact le_trans (Nat.le_succ s.calls)
            (ih ⟨mathRound (ratMulInt c s.delay), s.polls + 1, s.calls + 1, s.sleeps ++ [s.delay]⟩ _ _)

lemma boStopCtx_sleeps_spec {E : Type} (c : ℚ) (ctxErr : Nat → Option E)
    (cb : Nat → Option E × Bool) :
    ∀ fuel (s : CtxBoSt) (cancelled : Bool) e0,
      (retryWithStopLoopS (BoStopCtxCb c ctxErr cb) fuel s cancelled e0).2.sleeps
        = s.sleeps ++ backoffSleeps c s.delay
            (countFailsFrom (fun k => (cb k).1) s.calls
              ((retryWithStopLoopS (BoStopCtxCb c ctxErr cb) fuel s cancelled e0).2.calls
                - s.calls)) := by
  intro fuel
  induction fuel with
  | zero => intro s cancelled e0; simp [retryWithStopLoopS, countFailsFrom, backoffSleeps]
  | succ fuel ih =>
    intro s cancelled e0
    rw [retryWithStopLoopS_succ]
    cases cancelled with
    | true => simp [countFailsFrom, backoffSleeps]
    | false =>
      simp only [if_neg Bool.false_ne_true]
      cases hx : ctxErr s.polls with
      | some e =>
        simp only [BoStopCtxCb, hx]
        exact ih ⟨s.delay, s.polls + 1, s.calls, s.sleeps⟩ true (some e)
      | none =>
        cases hc : (cb s.calls).1 with
        | none =>
          simp only [BoStopCtxCb, hx, hc]
          have hm := boStopCtx_calls_mono c ctxErr cb fuel
            ⟨s.delay, s.polls + 1, s.calls + 1, s.sleeps⟩ (cb s.calls).2 none
          rw [ih ⟨s.delay, s.polls + 1, s.calls + 1, s.sleeps⟩ (cb s.calls).2 none]
          simp only at hm
          rw [show (retryWithStopLoopS (BoStopCtxCb c ctxErr cb) fuel
                ⟨s.delay, s.polls + 1, s.calls + 1, s.sleeps⟩ (cb s.calls).2 none).2.calls
                  - s.calls
              = ((retryWithStopLoopS (BoStopCtxCb c ctxErr cb) fuel
                ⟨s.delay, s.polls + 1, s.calls + 1, s.sleeps⟩ (cb s.calls).2 none).2.calls
                  - (s.calls + 1)) + 1 from by omega,
            countFailsFrom_succ]
          simp [hc]
        | some e =>
          simp only [BoStopCtxCb, hx, hc]
          have hm := boStopCtx_calls_mono c ctxErr cb fuel
            ⟨mathRound (ratMulInt c s.delay), s.polls + 1, s.calls + 1, s.sleeps ++ [s.delay]⟩
            (cb s.calls).2 (some e)
          rw [ih ⟨mathRound (ratMulInt c s.delay), s.polls + 1, s.calls + 1, s.sleeps ++ [s.delay]⟩
            (cb s.calls).2 (some e)]
          simp only at hm
          rw [show (retryWithStopLoopS (BoStopCtxCb c ctxErr cb) fuel
                ⟨mathRound (ratMulInt c s.delay), s.polls + 1, s.calls + 1, s.sleeps ++ [s.delay]⟩
                (cb s.calls).2 (some e)).2.calls - s.calls
              = ((retryWithStopLoopS (BoStopCtxCb c ctxErr cb) fuel
                ⟨mathRound (ratMulInt c s.delay), s.polls + 1, s.calls + 1, s.sleeps ++ [s.delay]⟩
                (cb s.calls).2 (some e)).2.calls - (s.calls + 1)) + 1 from by omega,
            countFailsFrom_succ]
          simp [hc, Nat.one_add, backoffSleeps_succ, List.append_assoc]

/-- Run-level form of `boRetry_sleeps_spec`: a `BackOffRetrier.Retry` call
sleeps exactly the back-off sequence starting at `initialDelay`, one entry
per failing attempt. -/
lemma boRetry_run_sleeps {E : Type} (r : BackOffRetrier) (numTimes : Int)
    (cb : Nat → Option E) :
    (r.Retry numTimes cb).2.sleeps
      = backoffSleeps r.backOffCoefficient r.initialDelay
          (countFailsFrom cb 0 (r.Retry numTimes cb).2.calls) := by
  rw [BackOffRetrier.Retry, RetryS]
  have hrun := boRetry_sleeps_spec r.backOffCoefficient cb (goFuel numTimes)
    ⟨r.initialDelay, 0, []⟩ none
  simpa using hrun

/-- Run-level form of `boRetryCtx_sleeps_spec`. -/
lemma boRetryCtx_run_sleeps {E : Type} (r : BackOffRetrier) (ctxErr : Nat → Option E)
    (numTimes : Int) (cb : Nat → Option E) :
    (r.RetryCtx ctxErr numTimes cb).2.sleeps
      = backoffSleeps r.backOffCoefficient r.initialDelay
          (countFailsFrom cb 0 (r.RetryCtx ctxErr numTimes cb).2.calls) := by
  rw [BackOffRetrier.RetryCtx, RetryS]
  have hrun := boRetryCtx_sleeps_spec r.backOffCoefficient ctxErr cb (goFuel numTimes)
    ⟨r.initialDelay, 0, 0, []⟩ none
  simpa using hrun

/-- Run-level form of `boStop_sleeps_spec`. -/
lemma boStop_run_sleeps {E : Type} (r : BackOffRetrier) (numTimes : Int)
    (cb : Nat → Option E × Bool) :
    (r.RetryWithStop numTimes cb).2.sleeps
      = backoffSleeps r.backOffCoefficient r.initialDelay
          (countFailsFrom (fun k => (cb k).1) 0 (r.RetryWithStop numTimes cb).2.calls) := by
  rw [BackOffRetrier.RetryWithStop]
  have hrun := boStop_sleeps_spec r.backOffCoefficient cb (goFuel numTimes)
    ⟨r.initialDelay, 0, []⟩ false none
  simpa using hrun

/-- Run-level form of `boStopCtx_sleeps_spec`. -/
lemma boStopCtx_run_sleeps {E : Type} (r : BackOffRetrier) (ctxErr : Nat → Option E)
    (numTimes : Int) (cb : Nat → Option E × Bool) :
    (r.RetryWithStopCtx ctxErr numTimes cb).2.sleeps
      = backoffSleeps r.backOffCoefficient r.initialDelay
          (countFailsFrom (fun k => (cb k).1) 0
            (r.RetryWithStopCtx ctxErr numTimes cb).2.calls) := by
  rw [BackOffRetrier.RetryWithStopCtx]
  have hrun := boStopCtx_sleeps_spec r.backOffCoefficient ctxErr cb (goFuel numTimes)
    ⟨r.initialDelay, 0, 0, []⟩ false none
  simpa using hrun

/-! ### Lemmas about the cancellable variants, for a monotone signal
`ctxFrom m reason` that is cancelled from the `m`-th poll on -/

lemma iterDelay_succ (c : ℚ) (d : Int) (t : Nat) :
    iterDelay c d (t + 1) = iterDelay c (mathRound (ratMulInt c d)) t := rfl

lemma retryCtx_loop_cancelled {E : Type} (m : Nat) (reason : E) (cb : Nat → Option E) :
    ∀ fuel j k e0, m ≤ j →
      retryLoopS (RetryCtxCb (ctxFrom m reason) cb) (fuel + 1) ⟨j, k⟩ e0
        = (some reason, ⟨j + (fuel + 1), k⟩) := by
  intro fuel
  induction fuel with
  | zero =>
    intro j k e0 hj
    have hctx : ctxFrom m reason j = some reason := by
      simp only [ctxFrom]; rw [if_neg (by omega)]
    rw [retryLoopS_succ]
    simp [RetryCtxCb, hctx, retryLoopS]
  | succ fuel ih =>
    intro j k e0 hj
    have hctx : ctxFrom m reason j = some reason := by
      simp only [ctxFrom]; rw [if_neg (by omega)]
    rw [retryLoopS_succ]
    simp only [RetryCtxCb, hctx]
    rw [ih (j + 1) k (some reason) (by omega),
      show j + 1 + (fuel + 1) = j + (fuel + 1 + 1) from by omega]

lemma retryCtx_loop_from {E : Type} (m : Nat) (reason : E) (cb : Nat → Option E)
    (hfail : ∀ i, cb i ≠ none) :
    ∀ fuel j k e0, j ≤ m → m - j < fuel →
      retryLoopS (RetryCtxCb (ctxFrom m reason) cb) fuel ⟨j, k⟩ e0
        = (some reason, ⟨j + fuel, k + (m - j)⟩) := by
  intro fuel
  induction fuel with
  | zero => intro j k e0 hj hlt; exfalso; omega
  | succ fuel ih =>
    intro j k e0 hj hlt
    by_cases hjm : j < m
    · have hctx : ctxFrom m reason j = none := by
        simp only [ctxFrom]; rw [if_pos hjm]
      obtain ⟨e, he⟩ := Option.ne_none_iff_exists'.mp (hfail k)
      rw [retryLoopS_succ]
      simp only [RetryCtxCb, hctx, he]
      rw [ih (j + 1) (k + 1) (some e) (by omega) (by omega),
        show j + 1 + fuel = j + (fuel + 1) from by omega,
        show k + 1 + (m - (j + 1)) = k + (m - j) from by omega]
    · have hj' : j = m := by omega
      subst hj'
      rw [retryCtx_loop_cancelled j reason cb fuel j k e0 (by omega)]
      simp

lemma retryDelayCtx_loop_cancelled {E : Type} (m : Nat) (reason : E) (cb : Nat → Option E)
    (delay : Int) :
    ∀ fuel j k sl e0, m ≤ j →
      retryWithDelayLoopS delay (RetryCtxCb (ctxFrom m reason) cb) (fuel + 1) ⟨j, k⟩ sl e0
        = (some reason, ⟨j + (fuel + 1), k⟩, sl ++ List.replicate (fuel + 1) delay) := by
  intro fuel
  induction fuel with
  | zero =>
    intro j k sl e0 hj
    have hctx : ctxFrom m reason j = some reason := by
      simp only [ctxFrom]; rw [if_neg (by omega)]
    rw [retryWithDelayLoopS_succ]
    simp [RetryCtxCb, hctx, retryWithDelayLoopS]
  | succ fuel ih =>
    intro j k sl e0 hj
    have hctx : ctxFrom m reason j = some reason := by
      simp only [ctxFrom]; rw [if_neg (by omega)]
    rw [retryWithDelayLoopS_succ]
    simp only [RetryCtxCb, hctx]
    rw [ih (j + 1) k (sl ++ [delay]) (some reason) (by omega),
      show j + 1 + (fuel + 1) = j + (fuel + 1 + 1) from by omega]
    simp [List.replicate_succ, List.append_assoc]

lemma retryDelayCtx_loop_from {E : Type} (m : Nat) (reason : E) (cb : Nat → Option E)
    (delay : Int) (hfail : ∀ i, cb i ≠ none) :
    ∀ fuel j k sl e0, j ≤ m → m - j < fuel →
      retryWithDelayLoopS delay (RetryCtxCb (ctxFrom m reason) cb) fuel ⟨j, k⟩ sl e0
        = (some reason, ⟨j + fuel, k + (m - j)⟩, sl ++ List.replicate fuel delay) := by
  intro fuel
  induction fuel with
  | zero => intro j k sl e0 hj hlt; exfalso; omega
  | succ fuel ih =>
    intro j k sl e0 hj hlt
    by_cases hjm : j < m
    · have hctx : ctxFrom m reason j = none := by
        simp only [ctxFrom]; rw [if_pos hjm]
      obtain ⟨e, he⟩ := Option.ne_none_iff_exists'.mp (hfail k)
      rw [retryWithDelayLoopS_succ]
      simp only [RetryCtxCb, hctx, he]
      rw [ih (j + 1) (k + 1) (sl ++ [delay]) (some e) (by omega) (by omega),
        show j + 1 + fuel = j + (fuel + 1) from by omega,
        show k + 1 + (m - (j + 1)) = k + (m - j) from by omega]
      simp [List.replicate_succ, List.append_assoc]
    · have hj' : j = m := by omega
      subst hj'
      rw [retryDelayCtx_loop_cancelled j reason cb delay fuel j k sl e0 (by omega)]
      simp

lemma boRetryCtx_loop_cancelled {E : Type} (c : ℚ) (m : Nat) (reason : E)
    (cb : Nat → Option E) :
    ∀ fuel j k d sl e0, m ≤ j →
      retryLoopS (BoRetryCtxCb c (ctxFrom m reason) cb) (fuel + 1) ⟨d, j, k, sl⟩ e0
        = (some reason, ⟨d, j + (fuel + 1), k, sl⟩) := by
  intro fuel
  induction fuel with
  | zero =>
    intro j k d sl e0 hj
    have hctx : ctxFrom m reason j = some reason := by
      simp only [ctxFrom]; rw [if_neg (by omega)]
    rw [retryLoopS_succ]
    simp [BoRetryCtxCb, hctx, retryLoopS]
  | succ fuel ih =>
    intro j k d sl e0 hj
    have hctx : ctxFrom m reason j = some reason := by
      simp only [ctxFrom]; rw [if_neg (by omega)]
    rw [retryLoopS_succ]
    simp only [BoRetryCtxCb, hctx]
    rw [ih (j + 1) k d sl (some reason) (by omega),
      show j + 1 + (fuel + 1) = j + (fuel + 1 + 1) from by omega]

lemma boRetryCtx_loop_from {E : Type} (c : ℚ) (m : Nat) (reason : E)
    (cb : Nat → Option E) (hfail : ∀ i, cb i ≠ none) :
    ∀ fuel j k d sl e0, j ≤ m → m - j < fuel →
      retryLoopS (BoRetryCtxCb c (ctxFrom m reason) cb) fuel ⟨d, j, k, sl⟩ e0
        = (some reason, ⟨iterDelay c d (m - j), j + fuel, k + (m - j),
            sl ++ backoffSleeps c d (m - j)⟩) := by
  intro fuel
  induction fuel with
  | zero => intro j k d sl e0 hj hlt; exfalso; omega
  | succ fuel ih =>
    intro j k d sl e0 hj hlt
    by_cases hjm : j < m
    · have hctx : ctxFrom m reason j = none := by
        simp only [ctxFrom]; rw [if_pos hjm]
      obtain ⟨e, he⟩ := Option.ne_none_iff_exists'.mp (hfail k)
      rw [retryLoopS_succ]
      simp only [BoRetryCtxCb, hctx, he]
      rw [ih (j + 1) (k + 1) (mathRound (ratMulInt c d)) (sl ++ [d]) (some e)
          (by omega) (by omega),
        show m - j = (m - (j + 1)) + 1 from by omega,
        iterDelay_succ, backoffSleeps_succ,
        show j + 1 + fuel = j + (fuel + 1) from by omega,
        show k + 1 + (m - (j + 1)) = k + ((m - (j + 1)) + 1) from by omega]
      simp [List.append_assoc]
    · have hj' : j = m := by omega
      subst hj'
      rw [boRetryCtx_loop_cancelled c j reason cb fuel j k d sl e0 (by omega)]
      simp [iterDelay, backoffSleeps]

lemma stopCtx_loop_cancelled {E : Type} (m : Nat) (reason : E)
    (scb : Nat → Option E × Bool) :
    ∀ fuel j k e0, m ≤ j →
      retryWithStopLoopS (RetryWithStopCtxCb (ctxFrom m reason) scb) (fuel + 1)
          ⟨j, k⟩ false e0
        = (some reason, ⟨j + 1, k⟩) := by
  intro fuel j k e0 hj
  have hctx : ctxFrom m reason j = some reason := by
    simp only [ctxFrom]; rw [if_neg (by omega)]
  rw [retryWithStopLoopS_succ]
  simp only [if_neg Bool.false_ne_true, RetryWithStopCtxCb, hctx]
  rw [retryWithStopLoopS_cancelled]

lemma stopCtx_loop_from {E : Type} (m : Nat) (reason : E) (scb : Nat → Option E × Bool)
    (hns : ∀ i, (scb i).2 = false) :
    ∀ fuel j k e0, j ≤ m → m - j < fuel →
      retryWithStopLoopS (RetryWithStopCtxCb (ctxFrom m reason) scb) fuel ⟨j, k⟩ false e0
        = (some reason, ⟨m + 1, k + (m - j)⟩) := by
  intro fuel
  induction fuel with
  | zero => intro j k e0 hj hlt; exfalso; omega
  | succ fuel ih =>
    intro j k e0 hj hlt
    by_cases hjm : j < m
    · have hctx : ctxFrom m reason j = none := by
        simp only [ctxFrom]; rw [if_pos hjm]
      rw [retryWithStopLoopS_succ]
      simp only [if_neg Bool.false_ne_true, RetryWithStopCtxCb, hctx, hns k]
      rw [ih (j + 1) (k + 1) ((scb k).1) (by omega) (by omega),
        show k + 1 + (m - (j + 1)) = k + (m - j) from by omega]
    · have hj' : j = m := by omega
      subst hj'
      rw [stopCtx_loop_cancelled j reason scb fuel j k e0 (by omega)]
      simp

lemma boStopCtx_loop_cancelled {E : Type} (c : ℚ) (m : Nat) (reason : E)
    (scb : Nat → Option E × Bool) :
    ∀ fuel j k d sl e0, m ≤ j →
      retryWithStopLoopS (BoStopCtxCb c (ctxFrom m reason) scb) (fuel + 1)
          ⟨d, j, k, sl⟩ false e0
        = (some reason, ⟨d, j + 1, k, sl⟩) := by
  intro fuel j k d sl e0 hj
  have hctx : ctxFrom m reason j = some reason := by
    simp only [ctxFrom]; rw [if_neg (by omega)]
  rw [retryWithStopLoopS_succ]
  simp only [if_neg Bool.false_ne_true, BoStopCtxCb, hctx]
  rw [retryWithStopLoopS_cancelled]

lemma boStopCtx_loop_from {E : Type} (c : ℚ) (m : Nat) (reason : E)
    (scb : Nat → Option E × Bool) (hns : ∀ i, (scb i).2 = false) :
    ∀ fuel j k d sl e0, j ≤ m → m - j < fuel →
      (retryWithStopLoopS (BoStopCtxCb c (ctxFrom m reason) scb) fuel
          ⟨d, j, k, sl⟩ false e0).1 = some reason
        ∧ (retryWithStopLoopS (BoStopCtxCb c (ctxFrom m reason) scb) fuel
            ⟨d, j, k, sl⟩ false e0).2.calls = k + (m - j) := by
  intro fuel
  induction fuel with
  | zero => intro j k d sl e0 hj hlt; exfalso; omega
  | succ fuel ih =>
    intro j k d sl e0 hj hlt
    by_cases hjm : j < m
    · have hctx : ctxFrom m reason j = none := by
        simp only [ctxFrom]; rw [if_pos hjm]
      rw [retryWithStopLoopS_succ]
      cases hc : (scb k).1 with
      | none =>
        simp only [if_neg Bool.false_ne_true, BoStopCtxCb, hctx, hc, hns k]
        obtain ⟨h1, h2⟩ := ih (j + 1) (k + 1) d sl none (by omega) (by omega)
        exact ⟨h1, by rw [h2]; omega⟩
      | some e =>
        simp only [if_neg Bool.false_ne_true, BoStopCtxCb, hctx, hc, hns k]
        obtain ⟨h1, h2⟩ := ih (j + 1) (k + 1) (mathRound (ratMulInt c d)) (sl ++ [d])
          (some e) (by omega) (by omega)
        exact ⟨h1, by rw [h2]; omega⟩
    · have hj' : j = m := by omega
      subst hj'
      rw [boStopCtx_loop_cancelled c j reason scb fuel j k d sl e0 (by omega)]
      simp

/-- C3: for every cancellable variant (`RetryCtx`, `RetryWithDelayCtx`,
`RetryWithStopCtx` and the two `BackOffRetrier` Ctx methods), if the
cancellation signal is already triggered before the call (`ctxFrom 0`),
the user-supplied operation is invoked zero times and the cancellation
reason is the returned result; and if the signal becomes cancelled between
attempts — visible from the `m`-th wrapped invocation on, with the run
still going at that point (`m ≤ numTimes`, the operation neither
succeeding nor calling `stop()` before then) — no invocation of the
operation beyond the `m`-th occurs and the cancellation reason is
returned. -/
theorem ctx_cancellation_skips_operation {E : Type} (reason : E) (numTimes : Int)
    (m : Nat) (delay : Int) (br : BackOffRetrier) (cb cbA : Nat → Option E)
    (scb scbA : Nat → Option E × Bool) (h0 : 0 ≤ numTimes) (hm : (m : Int) ≤ numTimes)
    (hfail : ∀ i, cb i ≠ none) (hns : ∀ i, (scb i).2 = false) :
    ((RetryCtx (ctxFrom 0 reason) numTimes cbA).1 = some reason
      ∧ (RetryCtx (ctxFrom 0 reason) numTimes cbA).2.calls = 0)
    ∧ ((RetryWithDelayCtx (ctxFrom 0 reason) numTimes delay cbA).1 = some reason
      ∧ (RetryWithDelayCtx (ctxFrom 0 reason) numTimes delay cbA).2.1.calls = 0)
    ∧ ((RetryWithStopCtx (ctxFrom 0 reason) numTimes scbA).1 = some reason
      ∧ (RetryWithStopCtx (ctxFrom 0 reason) numTimes scbA).2.calls = 0)
    ∧ ((br.RetryCtx (ctxFrom 0 reason) numTimes cbA).1 = some reason
      ∧ (br.RetryCtx (ctxFrom 0 reason) numTimes cbA).2.calls = 0)
    ∧ ((br.RetryWithStopCtx (ctxFrom 0 reason) numTimes scbA).1 = some reason
      ∧ (br.RetryWithStopCtx (ctxFrom 0 reason) numTimes scbA).2.calls = 0)
    ∧ ((RetryCtx (ctxFrom m reason) numTimes cb).1 = some reason
      ∧ (RetryCtx (ctxFrom m reason) numTimes cb).2.calls = m)
    ∧ ((RetryWithDelayCtx (ctxFrom m reason) numTimes delay cb).1 = some reason
      ∧ (RetryWithDelayCtx (ctxFrom m reason) numTimes delay cb).2.1.calls = m)
    ∧ ((RetryWithStopCtx (ctxFrom m reason) numTimes scb).1 = some reason
      ∧ (RetryWithStopCtx (ctxFrom m reason) numTimes scb).2.calls = m)
    ∧ ((br.RetryCtx (ctxFrom m reason) numTimes cb).1 = some reason
      ∧ (br.RetryCtx (ctxFrom m reason) numTimes cb).2.calls = m)
    ∧ ((br.RetryWithStopCtx (ctxFrom m reason) numTimes scb).1 = some reason
      ∧ (br.RetryWithStopCtx (ctxFrom m reason) numTimes scb).2.calls = m) := by
  have hA1 : RetryCtx (ctxFrom 0 reason) numTimes cbA
      = (some reason, ⟨numTimes.toNat + 1, 0⟩) := by
    rw [RetryCtx, RetryS, goFuel_of_nonneg h0]
    have hrun := retryCtx_loop_cancelled 0 reason cbA numTimes.toNat 0 0 none (by omega)
    simpa using hrun
  have hA2 : RetryWithDelayCtx (ctxFrom 0 reason) numTimes delay cbA
      = (some reason, ⟨numTimes.toNat + 1, 0⟩, List.replicate (numTimes.toNat + 1) delay) := by
    rw [RetryWithDelayCtx, goFuel_of_nonneg h0]
    have hrun := retryDelayCtx_loop_cancelled 0 reason cbA delay numTimes.toNat 0 0 []
      none (by omega)
    simpa using hrun
  have hA3 : RetryWithStopCtx (ctxFrom 0 reason) numTimes scbA = (some reason, ⟨1, 0⟩) := by
    rw [RetryWithStopCtx, goFuel_of_nonneg h0]
    exact stopCtx_loop_cancelled 0 reason scbA numTimes.toNat 0 0 none (by omega)
  have hA4 : br.RetryCtx (ctxFrom 0 reason) numTimes cbA
      = (some reason, ⟨br.initialDelay, numTimes.toNat + 1, 0, []⟩) := by
    rw [BackOffRetrier.RetryCtx, RetryS, goFuel_of_nonneg h0]
    have hrun := boRetryCtx_loop_cancelled br.backOffCoefficient 0 reason cbA
      numTimes.toNat 0 0 br.initialDelay [] none (by omega)
    simpa using hrun
  have hA5 : br.RetryWithStopCtx (ctxFrom 0 reason) numTimes scbA
      = (some reason, ⟨br.initialDelay, 1, 0, []⟩) := by
    rw [BackOffRetrier.RetryWithStopCtx, goFuel_of_nonneg h0]
    exact boStopCtx_loop_cancelled br.backOffCoefficient 0 reason scbA numTimes.toNat
      0 0 br.initialDelay [] none (by omega)
  have hB1 : RetryCtx (ctxFrom m reason) numTimes cb
      = (some reason, ⟨numTimes.toNat + 1, m⟩) := by
    rw [RetryCtx, RetryS, goFuel_of_nonneg h0]
    have hrun := retryCtx_loop_from m reason cb hfail (numTimes.toNat + 1) 0 0 none
      (by omega) (by omega)
    simpa using hrun
  have hB2 : RetryWithDelayCtx (ctxFrom m reason) numTimes delay cb
      = (some reason, ⟨numTimes.toNat + 1, m⟩, List.replicate (numTimes.toNat + 1) delay) := by
    rw [RetryWithDelayCtx, goFuel_of_nonneg h0]
    have hrun := retryDelayCtx_loop_from m reason cb delay hfail (numTimes.toNat + 1)
      0 0 [] none (by omega) (by omega)
    simpa using hrun
  have hB3 : RetryWithStopCtx (ctxFrom m reason) numTimes scb
      = (some reason, ⟨m + 1, m⟩) := by
    rw [RetryWithStopCtx, goFuel_of_nonneg h0]
    have hrun := stopCtx_loop_from m reason scb hns (numTimes.toNat + 1) 0 0 none
      (by omega) (by omega)
    simpa using hrun
  have hB4 : br.RetryCtx (ctxFrom m reason) numTimes cb
      = (some reason, ⟨iterDelay br.backOffCoefficient br.initialDelay m,
          numTimes.toNat + 1, m, backoffSleeps br.backOffCoefficient br.initialDelay m⟩) := by
    rw [BackOffRetrier.RetryCtx, RetryS, goFuel_of_nonneg h0]
    have hrun := boRetryCtx_loop_from br.backOffCoefficient m reason cb hfail
      (numTimes.toNat + 1) 0 0 br.initialDelay [] none (by omega) (by omega)
    simpa using hrun
  have hB5 := boStopCtx_loop_from br.backOffCoefficient m reason scb hns
    (numTimes.toNat + 1) 0 0 br.initialDelay [] none (by omega) (by omega)
  refine ⟨⟨by rw [hA1], by rw [hA1]⟩, ⟨by rw [hA2], by rw [hA2]⟩,
    ⟨by rw [hA3], by rw [hA3]⟩, ⟨by rw [hA4], by rw [hA4]⟩,
    ⟨by rw [hA5], by rw [hA5]⟩, ⟨by rw [hB1], by rw [hB1]⟩,
    ⟨by rw [hB2], by rw [hB2]⟩, ⟨by rw [hB3], by rw [hB3]⟩,
    ⟨by rw [hB4], by rw [hB4]⟩, ?_, ?_⟩
  · rw [BackOffRetrier.RetryWithStopCtx, goFuel_of_nonneg h0]
    exact hB5.1
  · rw [BackOffRetrier.RetryWithStopCtx, goFuel_of_nonneg h0, hB5.2]
    omega

theorem ctx_cancellation_skips_operation_witness :
    (0 : Int) ≤ 2 ∧ ((1 : Nat) : Int) ≤ 2
    ∧ (∀ i : Nat, (fun _ : Nat => (some 7 : Option Nat)) i ≠ none)
    ∧ (∀ i : Nat, ((fun _ : Nat => ((some 7 : Option Nat), false)) i).2 = false)
    ∧ (((RetryCtx (ctxFrom 0 9) 2 (fun _ : Nat => (none : Option Nat))).1 = some 9
        ∧ (RetryCtx (ctxFrom 0 9) 2 (fun _ : Nat => (none : Option Nat))).2.calls = 0)
      ∧ ((RetryWithDelayCtx (ctxFrom 0 9) 2 4 (fun _ : Nat => (none : Option Nat))).1 = some 9
        ∧ (RetryWithDelayCtx (ctxFrom 0 9) 2 4
            (fun _ : Nat => (none : Option Nat))).2.1.calls = 0)
      ∧ ((RetryWithStopCtx (ctxFrom 0 9) 2
            (fun _ : Nat => ((none : Option Nat), false))).1 = some 9
        ∧ (RetryWithStopCtx (ctxFrom 0 9) 2
            (fun _ : Nat => ((none : Option Nat), false))).2.calls = 0)
      ∧ (((NewBackOffRetrier 5 (mkRat 3 2)).RetryCtx (ctxFrom 0 9) 2
            (fun _ : Nat => (none : Option Nat))).1 = some 9
        ∧ ((NewBackOffRetrier 5 (mkRat 3 2)).RetryCtx (ctxFrom 0 9) 2
            (fun _ : Nat => (none : Option Nat))).2.calls = 0)
      ∧ (((NewBackOffRetrier 5 (mkRat 3 2)).RetryWithStopCtx (ctxFrom 0 9) 2
            (fun _ : Nat => ((none : Option Nat), false))).1 = some 9
        ∧ ((NewBackOffRetrier 5 (mkRat 3 2)).RetryWithStopCtx (ctxFrom 0 9) 2
            (fun _ : Nat => ((none : Option Nat), false))).2.calls = 0)
      ∧ ((RetryCtx (ctxFrom 1 9) 2 (fun _ : Nat => (some 7 : Option Nat))).1 = some 9
        ∧ (RetryCtx (ctxFrom 1 9) 2 (fun _ : Nat => (some 7 : Option Nat))).2.calls = 1)
      ∧ ((RetryWithDelayCtx (ctxFrom 1 9) 2 4 (fun _ : Nat => (some 7 : Option Nat))).1 = some 9
        ∧ (RetryWithDelayCtx (ctxFrom 1 9) 2 4
            (fun _ : Nat => (some 7 : Option Nat))).2.1.calls = 1)
      ∧ ((RetryWithStopCtx (ctxFrom 1 9) 2
            (fun _ : Nat => ((some 7 : Option Nat), false))).1 = some 9
        ∧ (RetryWithStopCtx (ctxFrom 1 9) 2
            (fun _ : Nat => ((some 7 : Option Nat), false))).2.calls = 1)
      ∧ (((NewBackOffRetrier 5 (mkRat 3 2)).RetryCtx (ctxFrom 1 9) 2
            (fun _ : Nat => (some 7 : Option Nat))).1 = some 9
        ∧ ((NewBackOffRetrier 5 (mkRat 3 2)).RetryCtx (ctxFrom 1 9) 2
            (fun _ : Nat => (some 7 : Option Nat))).2.calls = 1)
      ∧ (((NewBackOffRetrier 5 (mkRat 3 2)).RetryWithStopCtx (ctxFrom 1 9) 2
            (fun _ : Nat => ((some 7 : Option Nat), false))).1 = some 9
        ∧ ((NewBackOffRetrier 5 (mkRat 3 2)).RetryWithStopCtx (ctxFrom 1 9) 2
            (fun _ : Nat => ((some 7 : Option Nat), false))).2.calls = 1)) :=
  ⟨by decide, by decide, fun _ => Option.some_ne_none 7, fun _ => rfl,
    ctx_cancellation_skips_operation 9 2 1 4 (NewBackOffRetrier 5 (mkRat 3 2)) _ _ _ _
      (by decide) (by decide) (fun _ => Option.some_ne_none 7) (fun _ => rfl)⟩

/-- C6 counterexample: with `initialDelay = 3` and coefficient `3/2`
(both exactly representable, so the rational model coincides with the
`float64` computation), a run with four failing attempts sleeps
`[3, 5, 8, 12]`: the delay after the third failing attempt is `8`, whereas
the claimed closed form `round(initialDelay × coefficient^(3-1))
= round(6.75) = 7` — so the claim is false at this input. -/
theorem backoff_closed_form_counterexample :
    ((NewBackOffRetrier 3 (mkRat 3 2)).Retry 3 (fun _ : Nat => (some 0 : Option Nat))).2.sleeps
        = [3, 5, 8, 12]
    ∧ specBackoffDelay 3 (mkRat 3 2) 3 = 7
    ∧ ((NewBackOffRetrier 3 (mkRat 3 2)).Retry 3
          (fun _ : Nat => (some 0 : Option Nat))).2.sleeps.getD 2 0
        ≠ specBackoffDelay 3 (mkRat 3 2) 3 :=
  ⟨by decide, by decide, by decide⟩

/-- C6 amended: the delay that `BackOffRetrier` sleeps after the `i`-th
failing attempt within one retry invocation (`i` counted from 1; here the
list index is `i - 1`) equals the `i`-th element of the iterated-rounding
sequence `delay₁ = initialDelay`, `delay_{i+1} = round(coefficient × delay_i)`
— which agrees with `round(initialDelay × coefficient^(i-1))` for `i ≤ 2`
but differs in general, because the implementation rounds at every step. -/
theorem backoff_delay_is_iterated_rounding {E : Type} (r : BackOffRetrier)
    (numTimes : Int) (cb : Nat → Option E) (i : Nat)
    (h : i < (r.Retry numTimes cb).2.sleeps.length) :
    (r.Retry numTimes cb).2.sleeps.getD i 0
      = iterDelay r.backOffCoefficient r.initialDelay i := by
  rw [boRetry_run_sleeps] at h ⊢
  rw [backoffSleeps_length] at h
  exact backoffSleeps_getD r.backOffCoefficient _ r.initialDelay i h

theorem backoff_delay_is_iterated_rounding_witness :
    2 < ((NewBackOffRetrier 3 (mkRat 3 2)).Retry 3
          (fun _ : Nat => (some 0 : Option Nat))).2.sleeps.length
    ∧ ((NewBackOffRetrier 3 (mkRat 3 2)).Retry 3
          (fun _ : Nat => (some 0 : Option Nat))).2.sleeps.getD 2 0
        = iterDelay (mkRat 3 2) 3 2 :=
  ⟨by decide,
    backoff_delay_is_iterated_rounding (NewBackOffRetrier 3 (mkRat 3 2)) 3 _ 2 (by decide)⟩

/-- C7: `RetryWithDelay` sleeps the configured duration after every
failing attempt and never after a successful one (the slept durations are
exactly one copy of `delay` per failing executed attempt); an operation
that always fails under `RetryWithDelay numTimes delay` causes exactly
`numTimes + 1` sleeps of the given delay, including one after the final
attempt that exhausts the budget; likewise the back-off variant sleeps
exactly once per failing executed attempt. -/
theorem retryWithDelay_sleeps_after_each_failure {E : Type} (numTimes : Int)
    (delay : Int) (cb cbf : Nat → Option E) (br : BackOffRetrier)
    (h0 : 0 ≤ numTimes) (hfail : ∀ j, cbf j ≠ none) :
    (RetryWithDelay numTimes delay cb).2.2
      = List.replicate (countFailsFrom cb 0 (RetryWithDelay numTimes delay cb).2.1) delay
    ∧ RetryWithDelay numTimes delay cbf
        = (cbf numTimes.toNat, numTimes.toNat + 1, List.replicate (numTimes.toNat + 1) delay)
    ∧ (br.Retry numTimes cb).2.sleeps.length
        = countFailsFrom cb 0 (br.Retry numTimes cb).2.calls := by
  refine ⟨?_, ?_, ?_⟩
  · rw [RetryWithDelay]
    have hrun := delayLoop_nat_sleeps delay cb (goFuel numTimes) 0 [] none
    simpa using hrun
  · rw [RetryWithDelay, goFuel_of_nonneg h0]
    have hrun := delayLoop_nat_fail_all delay cbf hfail numTimes.toNat 0 [] none
    simpa using hrun
  · rw [boRetry_run_sleeps, backoffSleeps_length]

theorem retryWithDelay_sleeps_after_each_failure_witness :
    (0 : Int) ≤ 1 ∧ (∀ j : Nat, (fun _ : Nat => (some 7 : Option Nat)) j ≠ none)
    ∧ ((RetryWithDelay 1 10 (fun k : Nat => if k = 0 then (some 7 : Option Nat) else none)).2.2
        = List.replicate
            (countFailsFrom (fun k : Nat => if k = 0 then (some 7 : Option Nat) else none) 0
              (RetryWithDelay 1 10
                (fun k : Nat => if k = 0 then (some 7 : Option Nat) else none)).2.1)
            10
      ∧ RetryWithDelay 1 10 (fun _ : Nat => (some 7 : Option Nat))
          = (some 7, 2, List.replicate 2 10)
      ∧ ((NewBackOffRetrier 3 (mkRat 3 2)).Retry 1
            (fun k : Nat => if k = 0 then (some 7 : Option Nat) else none)).2.sleeps.length
          = countFailsFrom (fun k : Nat => if k = 0 then (some 7 : Option Nat) else none) 0
              ((NewBackOffRetrier 3 (mkRat 3 2)).Retry 1
                (fun k : Nat => if k = 0 then (some 7 : Option Nat) else none)).2.calls) :=
  ⟨by decide, fun _ => Option.some_ne_none 7,
    retryWithDelay_sleeps_after_each_failure 1 10 _ _ (NewBackOffRetrier 3 (mkRat 3 2))
      (by decide) (fun _ => Option.some_ne_none 7)⟩

/-- C8: in `BackOffRetrier.RetryWithStop` and
`BackOffRetrier.RetryWithStopCtx` a back-off sleep occurs after an attempt
if and only if that attempt returned failure: the slept durations are
exactly the back-off sequence with one entry per failing executed attempt,
for an arbitrary callback — in particular one that calls `stop()` during a
failing attempt (its failure still contributes a sleep and a delay
advance) or during a successful attempt (no sleep). -/
theorem backoff_stop_sleeps_iff_failure {E : Type} (br : BackOffRetrier) (numTimes : Int)
    (scb scbc : Nat → Option E × Bool) (ctxErr : Nat → Option E) :
    (br.RetryWithStop numTimes scb).2.sleeps
      = backoffSleeps br.backOffCoefficient br.initialDelay
          (countFailsFrom (fun k => (scb k).1) 0 (br.RetryWithStop numTimes scb).2.calls)
    ∧ (br.RetryWithStopCtx ctxErr numTimes scbc).2.sleeps
      = backoffSleeps br.backOffCoefficient br.initialDelay
          (countFailsFrom (fun k => (scbc k).1) 0
            (br.RetryWithStopCtx ctxErr numTimes scbc).2.calls) :=
  ⟨boStop_run_sleeps br numTimes scb, boStopCtx_run_sleeps br ctxErr numTimes scbc⟩

/-- C9: every `BackOffRetrier` method keeps its current-delay state local
to one invocation: for each of the four methods the sleep sequence of a
call is the back-off sequence that starts afresh at the receiver's
`initialDelay` and is determined solely by `initialDelay`,
`backOffCoefficient` and the callback's failure pattern — so the receiver
carries no mutable state between calls and two successive calls with
identical operation behaviour produce identical sleep sequences (the
methods are pure functions of the unchanged receiver fields). -/
theorem backoff_state_is_call_local {E : Type} (br : BackOffRetrier) (numTimes : Int)
    (cb cbc : Nat → Option E) (scb scbc : Nat → Option E × Bool)
    (ctx1 ctx2 : Nat → Option E) :
    (br.Retry numTimes cb).2.sleeps
      = backoffSleeps br.backOffCoefficient br.initialDelay
          (countFailsFrom cb 0 (br.Retry numTimes cb).2.calls)
    ∧ (br.RetryCtx ctx1 numTimes cbc).2.sleeps
      = backoffSleeps br.backOffCoefficient br.initialDelay
          (countFailsFrom cbc 0 (br.RetryCtx ctx1 numTimes cbc).2.calls)
    ∧ (br.RetryWithStop numTimes scb).2.sleeps
      = backoffSleeps br.backOffCoefficient br.initialDelay
          (countFailsFrom (fun k => (scb k).1) 0 (br.RetryWithStop numTimes scb).2.calls)
    ∧ (br.RetryWithStopCtx ctx2 numTimes scbc).2.sleeps
      = backoffSleeps br.backOffCoefficient br.initialDelay
          (countFailsFrom (fun k => (scbc k).1) 0
            (br.RetryWithStopCtx ctx2 numTimes scbc).2.calls) :=
  ⟨boRetry_run_sleeps br numTimes cb, boRetryCtx_run_sleeps br ctx1 numTimes cbc,
    boStop_run_sleeps br numTimes scb, boStopCtx_run_sleeps br ctx2 numTimes scbc⟩

end GoRetry
